import Mathlib

/-!
Shallow embedding of the cart controller (Express + Supabase backend):
`getCart`, `addToCart`, `updateCartItem`, `removeFromCart`, `clearCart`.

The database state is modelled explicitly: a `products` table and a
`shopping_cart` table.  Numeric JSON values (price, stock, quantity) are
modelled as rationals, matching the dynamically-typed numbers of the source;
a request-body quantity can also be absent (the source applies the
destructuring default `quantity = 1`) or a non-number value.

Infrastructure failures of the remote store are not modelled: every query
succeeds.  The one internal failure that is modelled is the join in the
cart re-fetch: when a cart row references a product id that does not exist,
the source dereferences `item.products.price` on `null` and the handler
answers 500; this is `CartResult.storeFailure` here.
-/

/-- A row of the `products` table (the columns the controller selects). -/
structure Product where
  id : String
  name : String
  description : String
  price : ℚ
  image_url : String
  stock_quantity : ℚ
deriving DecidableEq

/-- A row of the `shopping_cart` table. -/
structure CartRow where
  id : String
  user_id : String
  product_id : String
  quantity : ℚ
deriving DecidableEq

/-- The two tables the controller touches. -/
structure DB where
  products : List Product
  cart : List CartRow
deriving DecidableEq

/-- One element of the `items` array of the JSON cart body: the cart-row id
and quantity joined with the product record. -/
structure CartItemView where
  id : String
  quantity : ℚ
  product : Product
deriving DecidableEq

/-- The JSON cart body `{ items, total }` the handlers answer with. -/
structure Cart where
  items : List CartItemView
  total : ℚ
deriving DecidableEq

/-- The `quantity` field of a request body: a JSON number, absent
(`undefined`, triggering the `quantity = 1` destructuring default in
`addToCart`), or present but not a number. -/
inductive ReqQuantity where
  | num (q : ℚ)
  | missing
  | nonNum
deriving DecidableEq

/-- The responses a cart handler can produce, by status class:
201/200 with a cart body, 200 with the bare `clearCart` confirmation
message, 400 invalid input, 404, 400 insufficient stock, 500. -/
inductive CartResult where
  | ok (cart : Cart)
  | cleared
  | validationError
  | notFound
  | insufficientStock
  | storeFailure
deriving DecidableEq

/-- `products.select(...).eq('id', pid).single()`. -/
def findProduct (db : DB) (pid : String) : Option Product :=
  db.products.find? (fun p => p.id == pid)

/-- `shopping_cart.select(...).eq('user_id', uid).eq('product_id', pid).single()`. -/
def findLine (db : DB) (uid pid : String) : Option CartRow :=
  db.cart.find? (fun r => r.user_id == uid && r.product_id == pid)

/-- `shopping_cart.select(...).eq('id', lid).eq('user_id', uid).single()`. -/
def findLineById (db : DB) (uid lid : String) : Option CartRow :=
  db.cart.find? (fun r => r.id == lid && r.user_id == uid)

/-- `shopping_cart.select(...).eq('user_id', uid)`: all of a user's rows. -/
def userRows (db : DB) (uid : String) : List CartRow :=
  db.cart.filter (fun r => r.user_id == uid)

/-- The join of one cart row with its product; `none` when the product id
dangles (the source would then throw on `item.products.price`). -/
def joinRow (db : DB) (r : CartRow) : Option CartItemView :=
  (findProduct db r.product_id).map (fun p => ⟨r.id, r.quantity, p⟩)

/-- Join a list of cart rows, failing on the first dangling product id. -/
def joinRows (db : DB) : List CartRow → Option (List CartItemView)
  | [] => some []
  | r :: rs =>
    match joinRow db r, joinRows db rs with
    | some it, some its => some (it :: its)
    | _, _ => none

/-- `updatedCart.reduce((sum, item) => sum + item.products.price * item.quantity, 0)`. -/
def totalOf (items : List CartItemView) : ℚ :=
  items.foldl (fun sum item => sum + item.product.price * item.quantity) 0

/-- The cart body every handler assembles: the user's rows joined with live
product data, plus the reduce-computed total. -/
def cartView (db : DB) (uid : String) : Option Cart :=
  (joinRows db (userRows db uid)).map (fun items => ⟨items, totalOf items⟩)

/-- The final re-fetch shared by the mutating handlers: `res.json(cart)` on
success, 500 when the join throws. -/
def respondWithCart (db : DB) (uid : String) : CartResult × DB :=
  match cartView db uid with
  | some cart => (CartResult.ok cart, db)
  | none => (CartResult.storeFailure, db)

/-- Handler `getCart`: read-only; `none` is the 500 path. -/
def getCart (db : DB) (uid : String) : Option Cart :=
  cartView db uid

/-- The destructuring `const { product_id, quantity = 1 } = req.body`
followed by `typeof quantity !== 'number'`: the value validation then
compares with 0, or `none` when the typeof check fails. -/
def effectiveQuantity : ReqQuantity → Option ℚ
  | ReqQuantity.num q => some q
  | ReqQuantity.missing => some 1
  | ReqQuantity.nonNum => none

/-- Handler `addToCart`.  `newLineId` stands for the row id the store
assigns to a freshly inserted `shopping_cart` row. -/
def addToCart (db : DB) (uid : String) (product_id : String)
    (rq : ReqQuantity) (newLineId : String) : CartResult × DB :=
  match effectiveQuantity rq with
  | none => (CartResult.validationError, db)
  | some quantity =>
    if product_id = "" ∨ quantity ≤ 0 then (CartResult.validationError, db)
    else
      match findProduct db product_id with
      | none => (CartResult.notFound, db)
      | some product =>
        if product.stock_quantity < quantity then (CartResult.insufficientStock, db)
        else
          match findLine db uid product.id with
          | some existingItem =>
            if existingItem.quantity + quantity > product.stock_quantity then
              (CartResult.insufficientStock, db)
            else
              respondWithCart
                { db with cart := db.cart.map (fun r =>
                    if r.id == existingItem.id && r.user_id == uid then
                      { r with quantity := existingItem.quantity + quantity } else r) } uid
          | none =>
            respondWithCart
              { db with cart := db.cart ++ [⟨newLineId, uid, product.id, quantity⟩] } uid

/-- Handler `updateCartItem`.  The validation `!quantity || typeof quantity
!== 'number' || quantity <= 0` rejects a missing body field, a non-number,
zero (falsy) and negatives; the final `update` filters by row id only. -/
def updateCartItem (db : DB) (uid lid : String) (rq : ReqQuantity) : CartResult × DB :=
  match rq with
  | ReqQuantity.num quantity =>
    if quantity ≤ 0 then (CartResult.validationError, db)
    else
      match findLineById db uid lid with
      | none => (CartResult.notFound, db)
      | some cartItem =>
        match findProduct db cartItem.product_id with
        | none => (CartResult.notFound, db)
        | some product =>
          if quantity > product.stock_quantity then (CartResult.insufficientStock, db)
          else
            respondWithCart
              { db with cart := db.cart.map (fun r =>
                  if r.id == lid then { r with quantity := quantity } else r) } uid
  | _ => (CartResult.validationError, db)

/-- Handler `removeFromCart`: `delete().eq('id', lid).eq('user_id', uid)`,
then the shared re-fetch; a missing row is not an error. -/
def removeFromCart (db : DB) (uid lid : String) : CartResult × DB :=
  respondWithCart
    { db with cart := db.cart.filter (fun r => !(r.id == lid && r.user_id == uid)) } uid

/-- Handler `clearCart`: `delete().eq('user_id', uid)`, answering a bare
confirmation message instead of a cart body. -/
def clearCart (db : DB) (uid : String) : CartResult × DB :=
  (CartResult.cleared, { db with cart := db.cart.filter (fun r => !(r.user_id == uid)) })

/-- Referential integrity of the cart table: every cart row's product id
resolves in the products table. -/
def WF (db : DB) : Prop :=
  ∀ r ∈ db.cart, (findProduct db r.product_id).isSome

/-- The spec's total formula: Σ line.quantity × current price of the line's
product (price 0 for a dangling reference, a case excluded wherever used). -/
def specTotal (db : DB) (uid : String) : ℚ :=
  ((userRows db uid).map
    (fun r => r.quantity * ((findProduct db r.product_id).elim 0 Product.price))).sum

/-- An inventory-side price change: rewrite one product's price, touching
nothing else. -/
def setPrice (db : DB) (pid : String) (newPrice : ℚ) : DB :=
  { db with products := db.products.map (fun p =>
      if p.id == pid then { p with price := newPrice } else p) }

/-- The user's cart rows, restricted to one product. -/
def linesFor (db : DB) (uid pid : String) : List CartRow :=
  db.cart.filter (fun r => r.user_id == uid && r.product_id == pid)

/-- A quantity value the validation of both mutating handlers rejects:
present but not a number, or a number that is not strictly positive. -/
def badQuantity : ReqQuantity → Prop
  | ReqQuantity.num q => q ≤ 0
  | ReqQuantity.missing => False
  | ReqQuantity.nonNum => True

lemma findProduct_id {db : DB} {pid : String} {P : Product}
    (hp : findProduct db pid = some P) : P.id = pid := by
  have := List.find?_some hp
  simpa using this

lemma find?_split {α : Type} {p : α → Bool} :
    ∀ {l : List α} {a : α}, l.find? p = some a →
      ∃ l1 l2, l = l1 ++ a :: l2 ∧ (∀ x ∈ l1, p x = false) ∧ p a = true := by
  intro l
  induction l with
  | nil => intro a h; simp at h
  | cons x xs ih =>
    intro a h
    cases hx : p x with
    | true =>
      simp only [List.find?_cons, hx] at h
      injection h with h
      subst h
      exact ⟨[], xs, rfl, by simp, hx⟩
    | false =>
      simp only [List.find?_cons, hx] at h
      obtain ⟨l1, l2, rfl, h1, h2⟩ := ih h
      exact ⟨x :: l1, l2, rfl, by simpa [hx] using h1, h2⟩

lemma totalOf_foldl (f : CartItemView → ℚ) :
    ∀ (l : List CartItemView) (init : ℚ),
      l.foldl (fun s i => s + f i) init = init + (l.map f).sum := by
  intro l
  induction l with
  | nil => intro init; simp
  | cons x xs ih => intro init; simp [ih]; ring

lemma totalOf_eq_sum (items : List CartItemView) :
    totalOf items = (items.map (fun i => i.product.price * i.quantity)).sum := by
  simpa using totalOf_foldl (fun i => i.product.price * i.quantity) items 0

lemma joinRows_isSome (db : DB) :
    ∀ (l : List CartRow), (∀ r ∈ l, (findProduct db r.product_id).isSome) →
      ∃ items, joinRows db l = some items := by
  intro l
  induction l with
  | nil => intro _; exact ⟨[], rfl⟩
  | cons r rs ih =>
    intro hl
    obtain ⟨p, hp⟩ := Option.isSome_iff_exists.mp (hl r (by simp))
    obtain ⟨its, hits⟩ := ih (fun x hx => hl x (by simp [hx]))
    exact ⟨⟨r.id, r.quantity, p⟩ :: its, by simp [joinRows, joinRow, hp, hits]⟩

lemma joinRows_total {db : DB} :
    ∀ {l : List CartRow} {items : List CartItemView}, joinRows db l = some items →
      totalOf items =
        (l.map (fun r => r.quantity * ((findProduct db r.product_id).elim 0 Product.price))).sum := by
  intro l
  induction l with
  | nil =>
    intro items h
    simp only [joinRows] at h
    injection h with h
    subst h
    rfl
  | cons r rs ih =>
    intro items h
    simp only [joinRows, joinRow] at h
    cases hp : findProduct db r.product_id with
    | none => rw [hp] at h; simp at h
    | some p =>
      rw [hp] at h
      cases hrs : joinRows db rs with
      | none => rw [hrs] at h; simp at h
      | some its =>
        rw [hrs] at h
        rw [Option.map_some'] at h
        injection h with h
        subst h
        rw [totalOf_eq_sum, List.map_cons, List.sum_cons, List.map_cons, List.sum_cons,
          ← totalOf_eq_sum, ih hrs, hp]
        simp only [Option.elim]
        ring

lemma cartView_total {db : DB} {uid : String} {c : Cart}
    (h : cartView db uid = some c) : c.total = specTotal db uid := by
  simp only [cartView] at h
  cases hj : joinRows db (userRows db uid) with
  | none => rw [hj] at h; simp at h
  | some items =>
    rw [hj, Option.map_some'] at h
    injection h with h
    subst h
    simpa [specTotal] using joinRows_total hj

lemma cartView_isSome {db : DB} (uid : String) (hwf : WF db) :
    ∃ c, cartView db uid = some c := by
  obtain ⟨items, hits⟩ :=
    joinRows_isSome db (userRows db uid)
      (fun r hr => hwf r (List.mem_of_mem_filter hr))
  exact ⟨⟨items, totalOf items⟩, by simp [cartView, hits]⟩

lemma respondWithCart_snd (db : DB) (uid : String) :
    (respondWithCart db uid).2 = db := by
  simp only [respondWithCart]
  split <;> rfl

lemma respondWithCart_of_some {db : DB} {uid : String} {c : Cart}
    (h : cartView db uid = some c) :
    respondWithCart db uid = (CartResult.ok c, db) := by
  simp [respondWithCart, h]

lemma respondWithCart_fst_ok {db : DB} {uid : String} {c : Cart}
    (h : (respondWithCart db uid).1 = CartResult.ok c) :
    cartView db uid = some c := by
  simp only [respondWithCart] at h
  split at h
  · rename_i cart hc; cases h; exact hc
  · cases h

lemma respondWithCart_fst_ne (db : DB) (uid : String) :
    (respondWithCart db uid).1 ≠ CartResult.insufficientStock ∧
    (respondWithCart db uid).1 ≠ CartResult.validationError ∧
    (respondWithCart db uid).1 ≠ CartResult.notFound := by
  simp only [respondWithCart]
  split <;> simp

lemma map_fix {α : Type} {f : α → α} {l : List α} (h : ∀ x ∈ l, f x = x) :
    l.map f = l := by
  conv_rhs => rw [show l = l.map id from (List.map_id l).symm]
  exact List.map_congr_left h

lemma nodup_middle_ids {l1 l2 : List CartRow} {e : CartRow}
    (h : ((l1 ++ e :: l2).map CartRow.id).Nodup) :
    (∀ x ∈ l1, x.id ≠ e.id) ∧ (∀ x ∈ l2, x.id ≠ e.id) := by
  rw [List.map_append, List.map_cons, List.nodup_middle] at h
  have h1 := (List.nodup_cons.mp h).1
  simp only [List.mem_append, List.mem_map, not_or, not_exists] at h1
  constructor
  · intro x hx hne
    exact h1.1 x ⟨hx, hne⟩
  · intro x hx hne
    exact h1.2 x ⟨hx, hne⟩

lemma id_unique {db : DB} (hnodup : (db.cart.map CartRow.id).Nodup)
    {x y : CartRow} (hx : x ∈ db.cart) (hy : y ∈ db.cart) (hxy : x.id = y.id) : x = y :=
  List.inj_on_of_nodup_map hnodup hx hy hxy

lemma respond_eq_ok {db : DB} {uid : String} {r : CartResult} {db2 : DB} {c : Cart}
    (h : respondWithCart db uid = (r, db2)) (hr : r = CartResult.ok c) :
    cartView db2 uid = some c := by
  subst hr
  have h2 : db2 = db := by rw [← respondWithCart_snd db uid, h]
  subst h2
  exact respondWithCart_fst_ok (by rw [h])

lemma addToCart_route_insert {db : DB} {uid pid nid : String} {q : ℚ} {P : Product}
    (hp : findProduct db pid = some P) (hpid : pid ≠ "") (hq : 0 < q)
    (hstock : ¬ P.stock_quantity < q) (hnoline : findLine db uid pid = none) :
    addToCart db uid pid (ReqQuantity.num q) nid =
      respondWithCart { db with cart := db.cart ++ [⟨nid, uid, pid, q⟩] } uid := by
  have hPid : P.id = pid := findProduct_id hp
  simp only [addToCart, effectiveQuantity, hp, hPid, hnoline,
    if_neg (not_or.mpr ⟨hpid, not_le.mpr hq⟩), if_neg hstock]

lemma addToCart_route_update {db : DB} {uid pid nid : String} {q : ℚ} {P : Product}
    {e : CartRow}
    (hp : findProduct db pid = some P) (hpid : pid ≠ "") (hq : 0 < q)
    (hstock : ¬ P.stock_quantity < q) (hline : findLine db uid pid = some e)
    (hsum : ¬ e.quantity + q > P.stock_quantity) :
    addToCart db uid pid (ReqQuantity.num q) nid =
      respondWithCart { db with cart := db.cart.map (fun row =>
        if row.id == e.id && row.user_id == uid then
          { row with quantity := e.quantity + q } else row) } uid := by
  have hPid : P.id = pid := findProduct_id hp
  simp only [addToCart, effectiveQuantity, hp, hPid, hline,
    if_neg (not_or.mpr ⟨hpid, not_le.mpr hq⟩), if_neg hstock, if_neg hsum]

lemma addToCart_route_insuff1 {db : DB} {uid pid nid : String} {q : ℚ} {P : Product}
    (hp : findProduct db pid = some P) (hpid : pid ≠ "") (hq : 0 < q)
    (hlt : P.stock_quantity < q) :
    addToCart db uid pid (ReqQuantity.num q) nid = (CartResult.insufficientStock, db) := by
  simp only [addToCart, effectiveQuantity, hp,
    if_neg (not_or.mpr ⟨hpid, not_le.mpr hq⟩), if_pos hlt]

lemma addToCart_route_insuff2 {db : DB} {uid pid nid : String} {q : ℚ} {P : Product}
    {e : CartRow}
    (hp : findProduct db pid = some P) (hpid : pid ≠ "") (hq : 0 < q)
    (hstock : ¬ P.stock_quantity < q) (hline : findLine db uid pid = some e)
    (hsum : e.quantity + q > P.stock_quantity) :
    addToCart db uid pid (ReqQuantity.num q) nid = (CartResult.insufficientStock, db) := by
  have hPid : P.id = pid := findProduct_id hp
  simp only [addToCart, effectiveQuantity, hp, hPid, hline,
    if_neg (not_or.mpr ⟨hpid, not_le.mpr hq⟩), if_neg hstock, if_pos hsum]

lemma WF_setCart {db : DB} {c2 : List CartRow}
    (h : ∀ r ∈ c2, (findProduct db r.product_id).isSome) :
    WF { db with cart := c2 } :=
  fun r hr => h r hr

lemma WF_insert {db : DB} {uid pid nid : String} {q : ℚ}
    (hwf : WF db) (hpid : (findProduct db pid).isSome) :
    WF { db with cart := db.cart ++ [⟨nid, uid, pid, q⟩] } := by
  apply WF_setCart
  intro r hr
  rcases List.mem_append.mp hr with hr | hr
  · exact hwf r hr
  · simp only [List.mem_singleton] at hr
    subst hr
    exact hpid

lemma WF_mapQuantity {db : DB} {f : CartRow → CartRow}
    (hwf : WF db) (hf : ∀ r, (f r).product_id = r.product_id) :
    WF { db with cart := db.cart.map f } := by
  apply WF_setCart
  intro r hr
  obtain ⟨r0, hr0, rfl⟩ := List.mem_map.mp hr
  rw [hf r0]
  exact hwf r0 hr0

lemma addToCart_ok {db : DB} {uid pid nid : String} {rq : ReqQuantity}
    {r : CartResult} {db2 : DB} {c : Cart}
    (h : addToCart db uid pid rq nid = (r, db2)) (hr : r = CartResult.ok c) :
    cartView db2 uid = some c := by
  subst hr
  unfold addToCart at h
  split at h
  · simp at h
  · split at h
    · simp at h
    · split at h
      · simp at h
      · split at h
        · simp at h
        · split at h
          · split at h
            · simp at h
            · exact respond_eq_ok h rfl
          · exact respond_eq_ok h rfl

lemma updateCartItem_ok {db : DB} {uid lid : String} {rq : ReqQuantity}
    {r : CartResult} {db2 : DB} {c : Cart}
    (h : updateCartItem db uid lid rq = (r, db2)) (hr : r = CartResult.ok c) :
    cartView db2 uid = some c := by
  subst hr
  unfold updateCartItem at h
  split at h
  · split at h
    · simp at h
    · split at h
      · simp at h
      · split at h
        · simp at h
        · split at h
          · simp at h
          · exact respond_eq_ok h rfl
  · simp at h

lemma removeFromCart_ok {db : DB} {uid lid : String}
    {r : CartResult} {db2 : DB} {c : Cart}
    (h : removeFromCart db uid lid = (r, db2)) (hr : r = CartResult.ok c) :
    cartView db2 uid = some c := by
  subst hr
  unfold removeFromCart at h
  exact respond_eq_ok h rfl

/-- C10: when the request body omits the quantity field, `addToCart` does not
fail validation but behaves exactly as `addToCart` with quantity 1: same
response and same resulting store on every input. -/
theorem addToCart_default_quantity :
    ∀ (db : DB) (uid pid nid : String),
      addToCart db uid pid ReqQuantity.missing nid =
        addToCart db uid pid (ReqQuantity.num 1) nid := by
  intro db uid pid nid
  rfl

/-- C9: no cart-service operation ever mutates the product store: `getCart`
is the pure read `cartView`, and each of the four mutating handlers leaves
the `products` table of the resulting state unchanged, on every path,
successful or failing. -/
theorem product_store_frame :
    ∀ (db : DB) (uid pid nid lid : String) (rq : ReqQuantity),
      getCart db uid = cartView db uid ∧
      (addToCart db uid pid rq nid).2.products = db.products ∧
      (updateCartItem db uid lid rq).2.products = db.products ∧
      (removeFromCart db uid lid).2.products = db.products ∧
      (clearCart db uid).2.products = db.products := by
  intro db uid pid nid lid rq
  refine ⟨rfl, ?_, ?_, ?_, ?_⟩
  · unfold addToCart
    repeat' split
    all_goals simp [respondWithCart_snd]
  · unfold updateCartItem
    repeat' split
    all_goals simp [respondWithCart_snd]
  · unfold removeFromCart
    simp [respondWithCart_snd]
  · rfl

/-- C8: `clearCart` deletes exactly the caller's cart lines, answers the
bare confirmation (never a cart body), is idempotent, and a subsequent
`getCart` returns the empty item list with total 0. -/
theorem clearCart_spec (db : DB) (uid : String) (r : CartResult) (db2 : DB)
    (h : clearCart db uid = (r, db2)) :
    r = CartResult.cleared ∧
    (∀ row, row ∈ db2.cart ↔ (row ∈ db.cart ∧ row.user_id ≠ uid)) ∧
    clearCart db2 uid = (CartResult.cleared, db2) ∧
    getCart db2 uid = some ⟨[], 0⟩ := by
  have hr : r = CartResult.cleared := by
    have h1 := congrArg Prod.fst h
    simpa [clearCart] using h1.symm
  have hdb : db2 = { db with cart := db.cart.filter (fun row => !(row.user_id == uid)) } := by
    have h2 := congrArg Prod.snd h
    simpa [clearCart] using h2.symm
  subst hdb
  refine ⟨hr, ?_, ?_, ?_⟩
  · intro row
    simp [List.mem_filter]
  · unfold clearCart
    simp only [Prod.mk.injEq, true_and]
    congr 1
    apply List.filter_eq_self.mpr
    intro a ha
    exact (List.mem_filter.mp ha).2
  · have hrows :
        userRows { db with cart := db.cart.filter (fun row => !(row.user_id == uid)) } uid = [] := by
      apply List.filter_eq_nil_iff.mpr
      intro a ha
      have := (List.mem_filter.mp ha).2
      simpa using this
    simp [getCart, cartView, hrows, joinRows, totalOf]

/-- C7: `removeFromCart` on a line id that matches no line owned by the
caller succeeds without error (returning the recomputed cart whenever the
re-read succeeds), deletes nothing, and a second identical call yields the
same response and final state. -/
theorem removeFromCart_missing (db : DB) (uid lid : String) (r : CartResult) (db2 : DB)
    (h : removeFromCart db uid lid = (r, db2))
    (hno : ∀ row ∈ db.cart, ¬(row.id = lid ∧ row.user_id = uid)) :
    db2 = db ∧ (∀ c, cartView db uid = some c → r = CartResult.ok c) ∧
    removeFromCart db2 uid lid = (r, db2) := by
  have hfix : db.cart.filter (fun row => !(row.id == lid && row.user_id == uid)) = db.cart := by
    apply List.filter_eq_self.mpr
    intro a ha
    have := not_and_or.mp (hno a ha)
    simpa using this
  have hdb' :
      ({ db with cart := db.cart.filter (fun row => !(row.id == lid && row.user_id == uid)) } : DB)
        = db := by
    rw [hfix]
  unfold removeFromCart at h
  rw [hdb'] at h
  have h2 : db2 = db := by rw [← respondWithCart_snd db uid, h]
  subst h2
  refine ⟨rfl, ?_, ?_⟩
  · intro c hc
    have hok := respondWithCart_of_some hc
    exact (Prod.ext_iff.mp (h.symm.trans hok)).1
  · unfold removeFromCart
    rw [hdb']
    exact h

/-- C5: ownership isolation of `updateCartItem`: a caller distinct from a
line's owner gets `NotFoundError` — the same response as for a nonexistent
line — and the store, hence the owner's line, is unchanged. -/
theorem updateCartItem_ownership (db : DB) (u1 u2 lid : String) (q : ℚ)
    (r : CartResult) (db2 : DB) (e : CartRow)
    (h : updateCartItem db u2 lid (ReqQuantity.num q) = (r, db2))
    (hq : 0 < q) (hu : u1 ≠ u2)
    (he : e ∈ db.cart) (heid : e.id = lid) (heu : e.user_id = u1)
    (hnodup : (db.cart.map CartRow.id).Nodup) :
    r = CartResult.notFound ∧ db2 = db := by
  have hnone : findLineById db u2 lid = none := by
    apply List.find?_eq_none.mpr
    intro x hx
    simp only [Bool.and_eq_true, beq_iff_eq, not_and]
    intro hid hxu
    have hxe : x = e := id_unique hnodup hx he (by rw [hid, heid])
    subst hxe
    exact absurd (heu.symm.trans hxu) hu
  simp only [updateCartItem] at h
  rw [if_neg (not_le.mpr hq), hnone] at h
  injection h with h1 h2
  exact ⟨h1.symm, h2.symm⟩

/-- A one-product store with ample stock and an empty cart, used as the
concrete input of several witnesses. -/
def cexDb : DB := ⟨[⟨"p1", "n", "d", 2, "i", 10⟩], []⟩

/-- C6 counterexample: the claim says every non-integer quantity is rejected
with `ValidationError`, but the source only checks `typeof quantity !==
'number' || quantity <= 0`.  The positive non-integer 5/2 passes
validation: `addToCart` does not answer `ValidationError` and even mutates
the cart store. -/
theorem quantity_validation_cex :
    ((5 : ℚ)/2).den ≠ 1 ∧ (0 : ℚ) < 5/2 ∧
    (addToCart cexDb "u" "p1" (ReqQuantity.num (5/2)) "l1").1 ≠ CartResult.validationError ∧
    (addToCart cexDb "u" "p1" (ReqQuantity.num (5/2)) "l1").2.cart ≠ cexDb.cart := by
  refine ⟨by norm_num, by norm_num, ?_, ?_⟩
  · norm_num [cexDb, addToCart, effectiveQuantity, findProduct, findLine, respondWithCart,
      cartView, joinRows, joinRow, userRows, totalOf]
    decide
  · norm_num [cexDb, addToCart, effectiveQuantity, findProduct, findLine, respondWithCart,
      cartView, joinRows, joinRow, userRows, totalOf]
    decide

/-- C6 amended: a quantity that is present and not a positive number (a
non-number, zero, or a negative number) makes both `addToCart` and
`updateCartItem` fail with `ValidationError` and mutate nothing; a missing
quantity is also rejected by `updateCartItem` (never treated as removal).
Integrality, however, is not checked: positive non-integers pass. -/
theorem quantity_validation_amended (db : DB) (uid pid nid lid : String) (rq : ReqQuantity)
    (hbad : badQuantity rq) :
    addToCart db uid pid rq nid = (CartResult.validationError, db) ∧
    updateCartItem db uid lid rq = (CartResult.validationError, db) ∧
    updateCartItem db uid lid ReqQuantity.missing = (CartResult.validationError, db) := by
  cases rq with
  | num q =>
    have hq : q ≤ 0 := hbad
    refine ⟨?_, ?_, rfl⟩
    · simp only [addToCart, effectiveQuantity, if_pos (Or.inr hq)]
    · simp only [updateCartItem, if_pos hq]
  | missing => exact hbad.elim
  | nonNum => exact ⟨rfl, rfl, rfl⟩

lemma setCart_cart (db : DB) (c2 : List CartRow) :
    ({ db with cart := c2 } : DB).cart = c2 := rfl

/-- C1: `addToCart` is cumulative: with valid inputs and enough stock, it
creates the one line (user, product, q) when none exists, and otherwise it
rewrites that very line's quantity to existing + requested — never
overwriting with q alone and never creating a second line for the pair. -/
theorem addToCart_cumulative (db : DB) (uid pid nid : String) (q : ℚ) (P : Product)
    (r : CartResult) (db2 : DB)
    (h : addToCart db uid pid (ReqQuantity.num q) nid = (r, db2))
    (hp : findProduct db pid = some P) (hpid : pid ≠ "") (hq : 0 < q)
    (hnodup : (db.cart.map CartRow.id).Nodup) :
    (findLine db uid pid = none → q ≤ P.stock_quantity →
      db2.cart = db.cart ++ [⟨nid, uid, pid, q⟩] ∧
      linesFor db2 uid pid = [⟨nid, uid, pid, q⟩]) ∧
    (∀ e, findLine db uid pid = some e → 0 ≤ e.quantity →
      e.quantity + q ≤ P.stock_quantity →
      ∃ l1 l2, db.cart = l1 ++ e :: l2 ∧
        db2.cart = l1 ++ { e with quantity := e.quantity + q } :: l2) := by
  constructor
  · intro hnoline hstock
    rw [addToCart_route_insert hp hpid hq (not_lt.mpr hstock) hnoline] at h
    have hdb2 : db2 = { db with cart := db.cart ++ [⟨nid, uid, pid, q⟩] } := by
      rw [← respondWithCart_snd { db with cart := db.cart ++ [⟨nid, uid, pid, q⟩] } uid, h]
    subst hdb2
    refine ⟨rfl, ?_⟩
    simp only [linesFor, setCart_cart, List.filter_append]
    have h1 : db.cart.filter (fun row => row.user_id == uid && row.product_id == pid) = [] := by
      apply List.filter_eq_nil_iff.mpr
      intro a ha
      exact List.find?_eq_none.mp hnoline a ha
    rw [h1]
    simp
  · intro e hline he0 hsum
    have hequid : e.user_id = uid := by
      have := List.find?_some hline
      simp only [Bool.and_eq_true, beq_iff_eq] at this
      exact this.1
    have hstockq : ¬ P.stock_quantity < q := by
      intro hlt
      have h1 : q ≤ e.quantity + q := le_add_of_nonneg_left he0
      exact absurd (lt_of_lt_of_le hlt (le_trans h1 hsum)) (lt_irrefl _)
    rw [addToCart_route_update hp hpid hq hstockq hline (not_lt.mpr hsum)] at h
    have hdb2 : db2 = { db with cart := db.cart.map (fun row =>
        if row.id == e.id && row.user_id == uid then
          { row with quantity := e.quantity + q } else row) } := by
      rw [← respondWithCart_snd { db with cart := db.cart.map (fun row =>
        if row.id == e.id && row.user_id == uid then
          { row with quantity := e.quantity + q } else row) } uid, h]
    subst hdb2
    obtain ⟨l1, l2, hcart, _, _⟩ := find?_split hline
    have hnodup2 : ((l1 ++ e :: l2).map CartRow.id).Nodup := by rw [← hcart]; exact hnodup
    have hids := nodup_middle_ids hnodup2
    refine ⟨l1, l2, hcart, ?_⟩
    rw [setCart_cart, hcart, List.map_append, List.map_cons]
    have hfe : (if e.id == e.id && e.user_id == uid then
        { e with quantity := e.quantity + q } else e) = { e with quantity := e.quantity + q } := by
      simp [hequid]
    rw [hfe]
    have hm1 : l1.map (fun row => if row.id == e.id && row.user_id == uid then
        { row with quantity := e.quantity + q } else row) = l1 := by
      apply map_fix
      intro x hx
      have hxf : (x.id == e.id) = false := by simpa using hids.1 x hx
      simp [hxf]
    have hm2 : l2.map (fun row => if row.id == e.id && row.user_id == uid then
        { row with quantity := e.quantity + q } else row) = l2 := by
      apply map_fix
      intro x hx
      have hxf : (x.id == e.id) = false := by simpa using hids.2 x hx
      simp [hxf]
    rw [hm1, hm2]

/-- C2: `addToCart` answers `InsufficientStockError` exactly when the bound
is strictly exceeded (requested beyond stock with no line, or existing +
requested beyond stock with a line), mutating nothing in that case;
requests that meet the stock exactly pass the check and succeed on a
well-formed store. -/
theorem addToCart_stock_strict (db : DB) (uid pid nid : String) (q : ℚ) (P : Product)
    (r : CartResult) (db2 : DB)
    (h : addToCart db uid pid (ReqQuantity.num q) nid = (r, db2))
    (hp : findProduct db pid = some P) (hpid : pid ≠ "") (hq : 0 < q) :
    (findLine db uid pid = none →
      ((r = CartResult.insufficientStock ↔ P.stock_quantity < q) ∧
       (P.stock_quantity < q → db2 = db) ∧
       (WF db → q ≤ P.stock_quantity → ∃ c, r = CartResult.ok c))) ∧
    (∀ e, findLine db uid pid = some e → 0 < e.quantity →
      ((r = CartResult.insufficientStock ↔ P.stock_quantity < e.quantity + q) ∧
       (P.stock_quantity < e.quantity + q → db2 = db) ∧
       (WF db → e.quantity + q ≤ P.stock_quantity → ∃ c, r = CartResult.ok c))) := by
  constructor
  · intro hnoline
    by_cases hlt : P.stock_quantity < q
    · rw [addToCart_route_insuff1 hp hpid hq hlt] at h
      have h1 := (Prod.ext_iff.mp h).1
      have h2 := (Prod.ext_iff.mp h).2
      exact ⟨⟨fun _ => hlt, fun _ => h1.symm⟩, fun _ => h2.symm,
        fun _ hle => absurd hlt (not_lt.mpr hle)⟩
    · rw [addToCart_route_insert hp hpid hq hlt hnoline] at h
      have hrne : r ≠ CartResult.insufficientStock := by
        intro hrr
        exact (respondWithCart_fst_ne _ uid).1 (by rw [h]; exact hrr)
      refine ⟨⟨fun hr => absurd hr hrne, fun hlt2 => absurd hlt2 hlt⟩,
        fun hlt2 => absurd hlt2 hlt, ?_⟩
      intro hwf _
      have hwf2 : WF { db with cart := db.cart ++ [⟨nid, uid, pid, q⟩] } :=
        WF_insert hwf (by rw [hp]; rfl)
      obtain ⟨c, hc⟩ := cartView_isSome uid hwf2
      rw [respondWithCart_of_some hc] at h
      exact ⟨c, (Prod.ext_iff.mp h).1.symm⟩
  · intro e hline he0
    by_cases hlt : P.stock_quantity < q
    · have hlt2 : P.stock_quantity < e.quantity + q :=
        lt_of_lt_of_le hlt (le_add_of_nonneg_left (le_of_lt he0))
      rw [addToCart_route_insuff1 hp hpid hq hlt] at h
      have h1 := (Prod.ext_iff.mp h).1
      have h2 := (Prod.ext_iff.mp h).2
      exact ⟨⟨fun _ => hlt2, fun _ => h1.symm⟩, fun _ => h2.symm,
        fun _ hle => absurd hlt2 (not_lt.mpr hle)⟩
    · by_cases hsum : P.stock_quantity < e.quantity + q
      · rw [addToCart_route_insuff2 hp hpid hq hlt hline hsum] at h
        have h1 := (Prod.ext_iff.mp h).1
        have h2 := (Prod.ext_iff.mp h).2
        exact ⟨⟨fun _ => hsum, fun _ => h1.symm⟩, fun _ => h2.symm,
          fun _ hle => absurd hsum (not_lt.mpr hle)⟩
      · rw [addToCart_route_update hp hpid hq hlt hline hsum] at h
        have hrne : r ≠ CartResult.insufficientStock := by
          intro hrr
          exact (respondWithCart_fst_ne _ uid).1 (by rw [h]; exact hrr)
        refine ⟨⟨fun hr => absurd hr hrne, fun hl => absurd hl hsum⟩,
          fun hl => absurd hl hsum, ?_⟩
        intro hwf _
        have hwf2 : WF { db with cart := db.cart.map (fun row =>
            if row.id == e.id && row.user_id == uid then
              { row with quantity := e.quantity + q } else row) } := by
          apply WF_mapQuantity hwf
          intro row
          dsimp only
          split <;> rfl
        obtain ⟨c, hc⟩ := cartView_isSome uid hwf2
        rw [respondWithCart_of_some hc] at h
        exact ⟨c, (Prod.ext_iff.mp h).1.symm⟩

/-- C4: `updateCartItem` is an absolute set: whatever the line's existing
quantity, a valid requested quantity within stock replaces it outright
(one row rewritten, nothing else touched), and a quantity strictly above
stock fails with `InsufficientStockError` and no mutation. -/
theorem updateCartItem_absolute (db : DB) (uid lid : String) (q : ℚ)
    (r : CartResult) (db2 : DB) (e : CartRow) (P : Product)
    (h : updateCartItem db uid lid (ReqQuantity.num q) = (r, db2))
    (hq : 0 < q) (he : findLineById db uid lid = some e)
    (hp : findProduct db e.product_id = some P)
    (hnodup : (db.cart.map CartRow.id).Nodup) :
    (q ≤ P.stock_quantity →
      ∃ l1 l2, db.cart = l1 ++ e :: l2 ∧
        db2.cart = l1 ++ { e with quantity := q } :: l2) ∧
    (P.stock_quantity < q → r = CartResult.insufficientStock ∧ db2 = db) := by
  have heid : e.id = lid := by
    have := List.find?_some he
    simp only [Bool.and_eq_true, beq_iff_eq] at this
    exact this.1
  simp only [updateCartItem] at h
  rw [if_neg (not_le.mpr hq)] at h
  rw [he] at h
  simp only [] at h
  rw [hp] at h
  simp only [] at h
  constructor
  · intro hle
    have hcond : ¬ (q > P.stock_quantity) := not_lt.mpr hle
    rw [if_neg hcond] at h
    have hdb2 : db2 = { db with cart := db.cart.map (fun row =>
        if row.id == lid then { row with quantity := q } else row) } := by
      rw [← respondWithCart_snd { db with cart := db.cart.map (fun row =>
        if row.id == lid then { row with quantity := q } else row) } uid, h]
    subst hdb2
    obtain ⟨l1, l2, hcart, _, _⟩ := find?_split he
    have hnodup2 : ((l1 ++ e :: l2).map CartRow.id).Nodup := by rw [← hcart]; exact hnodup
    have hids := nodup_middle_ids hnodup2
    refine ⟨l1, l2, hcart, ?_⟩
    rw [setCart_cart, hcart, List.map_append, List.map_cons]
    have hfe : (if e.id == lid then { e with quantity := q } else e) =
        { e with quantity := q } := by
      simp [heid]
    rw [hfe]
    have hm1 : l1.map (fun row => if row.id == lid then
        { row with quantity := q } else row) = l1 := by
      apply map_fix
      intro x hx
      have hxf : (x.id == lid) = false := by
        rw [← heid]
        simpa using hids.1 x hx
      simp [hxf]
    have hm2 : l2.map (fun row => if row.id == lid then
        { row with quantity := q } else row) = l2 := by
      apply map_fix
      intro x hx
      have hxf : (x.id == lid) = false := by
        rw [← heid]
        simpa using hids.2 x hx
      simp [hxf]
    rw [hm1, hm2]
  · intro hlt
    have hcond : q > P.stock_quantity := hlt
    rw [if_pos hcond] at h
    exact ⟨(Prod.ext_iff.mp h).1.symm, (Prod.ext_iff.mp h).2.symm⟩

/-- C3: the cart-total invariant: every cart body the service returns —
from `getCart` and from every mutation that answers with a cart — carries
total = Σ line.quantity × the product's price in the store at read time;
and an inventory-side price change (`setPrice`) touches no cart line, so a
re-read recomputes the total from the new price without cart mutation. -/
theorem cart_total_invariant :
    (∀ (db : DB) (uid : String) (c : Cart),
      getCart db uid = some c → c.total = specTotal db uid) ∧
    (∀ (db : DB) (pid : String) (p : ℚ), (setPrice db pid p).cart = db.cart) ∧
    (∀ (db : DB) (uid pid nid : String) (rq : ReqQuantity) (c : Cart),
      (addToCart db uid pid rq nid).1 = CartResult.ok c →
      c.total = specTotal (addToCart db uid pid rq nid).2 uid) ∧
    (∀ (db : DB) (uid lid : String) (rq : ReqQuantity) (c : Cart),
      (updateCartItem db uid lid rq).1 = CartResult.ok c →
      c.total = specTotal (updateCartItem db uid lid rq).2 uid) ∧
    (∀ (db : DB) (uid lid : String) (c : Cart),
      (removeFromCart db uid lid).1 = CartResult.ok c →
      c.total = specTotal (removeFromCart db uid lid).2 uid) := by
  refine ⟨?_, ?_, ?_, ?_, ?_⟩
  · intro db uid c hc
    exact cartView_total hc
  · intro db pid p
    rfl
  · intro db uid pid nid rq c hc
    exact cartView_total (addToCart_ok Prod.mk.eta.symm hc)
  · intro db uid lid rq c hc
    exact cartView_total (updateCartItem_ok Prod.mk.eta.symm hc)
  · intro db uid lid c hc
    exact cartView_total (removeFromCart_ok Prod.mk.eta.symm hc)


/-- A store with one product (price 2, stock 10) and one cart line of user
"u" with quantity 3, a concrete input for several witnesses. -/
def wDb : DB := ⟨[⟨"p1", "n", "d", 2, "i", 10⟩], [⟨"l1", "u", "p1", 3⟩]⟩

/-- The cart body `getCart` computes on `wDb` for user "u". -/
def wCart : Cart := ⟨[⟨"l1", 3, ⟨"p1", "n", "d", 2, "i", 10⟩⟩], 6⟩

/-- Witness for C1 at a concrete input: adding 3 of a product with stock 10
to an empty cart creates exactly the one line with quantity 3. -/
theorem addToCart_cumulative_witness :
    (addToCart cexDb "u" "p1" (ReqQuantity.num 3) "l1").2.cart =
      cexDb.cart ++ [⟨"l1", "u", "p1", 3⟩] ∧
    linesFor (addToCart cexDb "u" "p1" (ReqQuantity.num 3) "l1").2 "u" "p1" =
      [⟨"l1", "u", "p1", 3⟩] :=
  (addToCart_cumulative cexDb "u" "p1" "l1" 3 ⟨"p1", "n", "d", 2, "i", 10⟩ _ _ rfl rfl
      (by decide) (by norm_num) (by simp [cexDb])).1 rfl (by norm_num)

/-- Witness for C2 at a concrete input: requesting 20 against stock 10
fails with insufficient stock and leaves the store unchanged. -/
theorem addToCart_stock_strict_witness :
    (addToCart cexDb "u" "p1" (ReqQuantity.num 20) "l1").1 = CartResult.insufficientStock ∧
    (addToCart cexDb "u" "p1" (ReqQuantity.num 20) "l1").2 = cexDb := by
  have H := (addToCart_stock_strict cexDb "u" "p1" "l1" 20 ⟨"p1", "n", "d", 2, "i", 10⟩ _ _ rfl
      rfl (by decide) (by norm_num)).1 rfl
  exact ⟨H.1.mpr (by norm_num), H.2.1 (by norm_num)⟩

/-- Witness for C3 at a concrete input: the cart of one line of quantity 3
on a price-2 product reads back with total 6 = Σ quantity × price. -/
theorem cart_total_invariant_witness :
    getCart wDb "u" = some wCart ∧ wCart.total = specTotal wDb "u" := by
  have hg : getCart wDb "u" = some wCart := by
    norm_num [getCart, cartView, joinRows, joinRow, findProduct, userRows, totalOf, wDb, wCart]
  exact ⟨hg, cart_total_invariant.1 wDb "u" wCart hg⟩

/-- Witness for C4 at a concrete input: updating the existing line to 99
against stock 10 fails with insufficient stock and mutates nothing. -/
theorem updateCartItem_absolute_witness :
    (updateCartItem wDb "u" "l1" (ReqQuantity.num 99)).1 = CartResult.insufficientStock ∧
    (updateCartItem wDb "u" "l1" (ReqQuantity.num 99)).2 = wDb :=
  (updateCartItem_absolute wDb "u" "l1" 99 _ _ ⟨"l1", "u", "p1", 3⟩
      ⟨"p1", "n", "d", 2, "i", 10⟩ rfl (by norm_num) rfl rfl (by simp [wDb])).2 (by norm_num)

/-- Witness for C5 at a concrete input: user "u2" touching the line owned
by "u" gets not-found and the store is unchanged. -/
theorem updateCartItem_ownership_witness :
    (updateCartItem wDb "u2" "l1" (ReqQuantity.num 1)).1 = CartResult.notFound ∧
    (updateCartItem wDb "u2" "l1" (ReqQuantity.num 1)).2 = wDb :=
  updateCartItem_ownership wDb "u" "u2" "l1" 1 _ _ ⟨"l1", "u", "p1", 3⟩ rfl (by norm_num)
    (by decide) (by simp [wDb]) rfl rfl (by simp [wDb])

/-- Witness for the amended C6 at a concrete input: quantity −1 is rejected
with `ValidationError` by both handlers, and a missing quantity by
`updateCartItem`. -/
theorem quantity_validation_amended_witness :
    addToCart cexDb "u" "p1" (ReqQuantity.num (-1)) "l1" = (CartResult.validationError, cexDb) ∧
    updateCartItem cexDb "u" "l1" (ReqQuantity.num (-1)) = (CartResult.validationError, cexDb) ∧
    updateCartItem cexDb "u" "l1" ReqQuantity.missing = (CartResult.validationError, cexDb) :=
  quantity_validation_amended cexDb "u" "p1" "l1" "l1" (ReqQuantity.num (-1))
    (by norm_num [badQuantity])

/-- Witness for C7 at a concrete input: removing a nonexistent line id
changes nothing and a second identical call gives the same outcome. -/
theorem removeFromCart_missing_witness :
    (removeFromCart wDb "u" "nosuch").2 = wDb ∧
    removeFromCart (removeFromCart wDb "u" "nosuch").2 "u" "nosuch" =
      removeFromCart wDb "u" "nosuch" := by
  have H := removeFromCart_missing wDb "u" "nosuch" _ _ rfl (by decide)
  exact ⟨H.1, H.2.2⟩

/-- Witness for C8 at a concrete input: after clearing, the re-read cart is
empty with total 0, and clearing again is a no-op. -/
theorem clearCart_spec_witness :
    getCart (clearCart wDb "u").2 "u" = some ⟨[], 0⟩ ∧
    clearCart (clearCart wDb "u").2 "u" = (CartResult.cleared, (clearCart wDb "u").2) :=
  ⟨(clearCart_spec wDb "u" _ _ rfl).2.2.2, (clearCart_spec wDb "u" _ _ rfl).2.2.1⟩
